import Mathlib

/-!
Verification development for the onto-nexus incremental knowledge-graph
merge engine (src/services/geminiService.ts, src/unnamed/part_000).

The data model follows the TypeScript interfaces in src/unnamed/part_000
(GraphNode, GraphLink, KnowledgeGraphData, NewsArticle, NodeType).  JS
numbers that carry coordinates are modelled as integers, and the random
jitter draws of Math.random are abstracted into an explicit stream
parameter `rand`, since no property below depends on the numeric values
of positions.  A link endpoint is either a plain id string or (after D3
processing) a whole node object; that union is the `Endpoint` type.
-/

namespace OntoNexus

/-- The `NodeType` string enum of src/unnamed/part_000. -/
inductive NodeType where
  | Person
  | Organization
  | Location
  | Event
  | Concept
  | Document
  | Artifact
  | Class
deriving DecidableEq, Repr

/-- The runtime string value of a `NodeType` member (the enum is a string
enum in the source, so `node.type` is this string at runtime). -/
def NodeType.toStr : NodeType → String
  | .Person => "Person"
  | .Organization => "Organization"
  | .Location => "Location"
  | .Event => "Event"
  | .Concept => "Concept"
  | .Document => "Document"
  | .Artifact => "Artifact"
  | .Class => "Class"

/-- A value of a `properties` record entry: `string | number`. -/
inductive PropVal where
  | str (s : String)
  | num (n : Int)
deriving DecidableEq, Repr

/-- `GraphNode` of src/unnamed/part_000: id, label, type, optional
properties, and the mutable D3 scratch fields x, y, vx, vy, fx, fy
(`fx`/`fy` are `number | null`, hence doubly optional). -/
structure GraphNode where
  id : String
  label : String
  type : NodeType
  properties : Option (List (String × PropVal)) := none
  x : Option Int := none
  y : Option Int := none
  vx : Option Int := none
  vy : Option Int := none
  fx : Option (Option Int) := none
  fy : Option (Option Int) := none
deriving DecidableEq, Repr

/-- A link endpoint: `string | GraphNode` (id before D3 processing, node
object afterwards). -/
inductive Endpoint where
  | ref (id : String)
  | node (n : GraphNode)
deriving DecidableEq, Repr

/-- `typeof e === "object" ? e.id : e` — the id an endpoint resolves to. -/
def Endpoint.resolveId : Endpoint → String
  | .ref s => s
  | .node n => n.id

/-- JS strict equality `e === s` between an endpoint value and a string:
true only when the endpoint is itself the string. -/
def Endpoint.strEq : Endpoint → String → Bool
  | .ref t, s => t == s
  | .node _, _ => false

/-- `GraphLink` of src/unnamed/part_000. -/
structure GraphLink where
  source : Endpoint
  target : Endpoint
  predicate : String
  label : String
  isOntologyLink : Option Bool := none
deriving DecidableEq, Repr

/-- `KnowledgeGraphData` of src/unnamed/part_000. -/
structure KnowledgeGraphData where
  nodes : List GraphNode
  links : List GraphLink
deriving DecidableEq, Repr

/-- The link dedup signature built in mergeGraphData:
`\x7b s \x7d-\x7b t \x7d-\x7b l.predicate \x7d` with s, t the resolved
endpoint ids. -/
def linkSig (l : GraphLink) : String :=
  l.source.resolveId ++ "-" ++ l.target.resolveId ++ "-" ++ l.predicate

/-- The new-node filter of mergeGraphData step 1:
`newNodes.filter(n => !existingIds.has(n.id))` where existingIds is the
set of ids of prev.nodes. -/
def uniqueNewNodes (prev : KnowledgeGraphData) (newNodes : List GraphNode) : List GraphNode :=
  newNodes.filter fun n => !((prev.nodes.map GraphNode.id).contains n.id)

/-- The new-link filter of mergeGraphData step 2:
`safeLinks.filter(l => !existingLinkSigs.has(sig(l)))` where the
signatures come from prev.links only. -/
def uniqueNewLinks (prev : KnowledgeGraphData) (newLinks : List GraphLink) : List GraphLink :=
  newLinks.filter fun l => !((prev.links.map linkSig).contains (linkSig l))

/-- One position assignment of mergeGraphData:
`n.x = 400 + (Math.random() - 0.5) * 50; n.y = 300 + (Math.random() - 0.5) * 50`,
with the two random draws abstracted as the pair `d`. -/
def placeNode (d : Int × Int) (n : GraphNode) : GraphNode :=
  { n with x := some (400 + d.1), y := some (300 + d.2) }

/-- The `uniqueNewNodes.forEach` placement loop, consuming the abstract
random stream `rand` one draw pair per node starting at index `i`. -/
def placeNodes (rand : Nat → Int × Int) : Nat → List GraphNode → List GraphNode
  | _, [] => []
  | i, n :: rest => placeNode (rand i) n :: placeNodes rand (i + 1) rest

/-- Result of one merge: the next canonical graph, the net-new nodes and
links of this merge, and the boolean the source function returns
(`hasChanges`). -/
structure MergeResult where
  graph : KnowledgeGraphData
  addedNodes : List GraphNode
  addedLinks : List GraphLink
  hasChanges : Bool
deriving DecidableEq, Repr

/-- `mergeGraphData` of the App component (src/services/geminiService.ts):
filter candidate nodes by existing ids, assign jittered positions to the
genuinely new nodes, filter candidate links by existing signatures, and
early-exit returning the previous state when both deltas are empty. -/
def mergeGraphData (rand : Nat → Int × Int) (prev : KnowledgeGraphData)
    (newNodes : List GraphNode) (newLinks : List GraphLink) : MergeResult :=
  if (uniqueNewNodes prev newNodes).isEmpty && (uniqueNewLinks prev newLinks).isEmpty then
    { graph := prev, addedNodes := [], addedLinks := [], hasChanges := false }
  else
    { graph := { nodes := prev.nodes ++ placeNodes rand 0 (uniqueNewNodes prev newNodes)
               , links := prev.links ++ uniqueNewLinks prev newLinks }
    , addedNodes := placeNodes rand 0 (uniqueNewNodes prev newNodes)
    , addedLinks := uniqueNewLinks prev newLinks
    , hasChanges := true }

/-- The pre-seeded upper ontology `STANDARD_CLASSES` of the App component. -/
def STANDARD_CLASSES : List GraphNode :=
  [ { id := "Person", label := "Person", type := NodeType.Class, x := some 0, y := some 0 }
  , { id := "Organization", label := "Organization", type := NodeType.Class, x := some 0, y := some 0 }
  , { id := "Location", label := "Location", type := NodeType.Class, x := some 0, y := some 0 }
  , { id := "Event", label := "Event", type := NodeType.Class, x := some 0, y := some 0 }
  , { id := "Concept", label := "Concept", type := NodeType.Class, x := some 0, y := some 0 }
  , { id := "Document", label := "Document", type := NodeType.Class, x := some 0, y := some 0 }
  , { id := "Artifact", label := "Artifact", type := NodeType.Class, x := some 0, y := some 0 }
  ]

/-- The graph loadIntel seeds at session start:
`setGraphData(\x7b nodes: [...STANDARD_CLASSES], links: [] \x7d)`. -/
def initialGraph : KnowledgeGraphData :=
  { nodes := STANDARD_CLASSES, links := [] }

/-- The empty graph (initial useState value). -/
def emptyGraph : KnowledgeGraphData :=
  { nodes := [], links := [] }

/-- A fixed instantiation of the abstract random stream, used for
concrete evaluations. -/
def rand0 : Nat → Int × Int := fun _ => (0, 0)

/-- The node-type dropdown value: a concrete `NodeType` or the literal
string ALL. -/
inductive TypeFilter where
  | all
  | kind (t : NodeType)
deriving DecidableEq, Repr

/-- The filter configuration of the App component: `searchTerm`,
`nodeTypeFilter`, `showOntology`.  `searchTerm` is passed to the renderer
for highlighting only; the view derivation below never reads it, exactly
as in the source. -/
structure Filters where
  searchTerm : String
  nodeTypeFilter : TypeFilter
  showOntology : Bool
deriving DecidableEq, Repr

/-- The per-node predicate of `filteredNodes`:
`if (!showOntology && node.type === Class) return false;`
`if (nodeTypeFilter !== ALL && node.type !== nodeTypeFilter) return false;`
`return true;`. -/
def nodeVisible (f : Filters) (node : GraphNode) : Bool :=
  if !f.showOntology && node.type == NodeType.Class then false
  else
    match f.nodeTypeFilter with
    | .all => true
    | .kind t => node.type == t

/-- `filteredNodes` of the App component. -/
def filteredNodes (g : KnowledgeGraphData) (f : Filters) : List GraphNode :=
  g.nodes.filter (nodeVisible f)

/-- `filteredLinks` of the App component: keep a link when both resolved
endpoint ids are found among the filtered nodes. -/
def filteredLinks (g : KnowledgeGraphData) (f : Filters) : List GraphLink :=
  g.links.filter fun link =>
    (filteredNodes g f).any (fun n => n.id == link.source.resolveId) &&
    (filteredNodes g f).any (fun n => n.id == link.target.resolveId)

/-- `links.some(l => l.source === node.id && l.predicate === "rdf:type")` —
whether a link list already holds an outgoing typing link for an id. -/
def hasTypeLink (links : List GraphLink) (id : String) : Bool :=
  links.any fun l => l.source.strEq id && l.predicate == "rdf:type"

/-- The link the heuristic pushes for an untyped node:
`\x7b source: node.id, target: node.type, predicate: "rdf:type",`
`label: "type", isOntologyLink: true \x7d`. -/
def synthTypeLink (node : GraphNode) : GraphLink :=
  { source := Endpoint.ref node.id
  , target := Endpoint.ref node.type.toStr
  , predicate := "rdf:type"
  , label := "type"
  , isOntologyLink := some true }

/-- One iteration of the heuristic-linking forEach in
extractKnowledgeGraph: skip Class nodes, skip nodes that already have a
typing link in the accumulated list, and otherwise push a synthesized
typing link (guarded by the truthiness of `targetClassId = node.type`,
which for the string enum only fails on the empty string). -/
def extractStep (links : List GraphLink) (node : GraphNode) : List GraphLink :=
  if node.type == NodeType.Class then links
  else if hasTypeLink links node.id then links
  else if node.type.toStr == "" then links
  else links ++ [synthTypeLink node]

/-- One iteration of the heuristic-linking forEach in performShaclScan:
identical to the extractKnowledgeGraph step but pushes unconditionally
once the node is non-Class and untyped. -/
def shaclStep (links : List GraphLink) (node : GraphNode) : List GraphLink :=
  if node.type == NodeType.Class then links
  else if hasTypeLink links node.id then links
  else links ++ [synthTypeLink node]

/-- The post-heuristic remap of extractKnowledgeGraph:
`isOntologyLink = predicate === "rdf:type" || predicate === "rdfs:subClassOf"`
`|| existingClasses.includes(l.target)` (the includes test uses strict
equality, so an object-valued target never matches). -/
def markOntologyLinks (existingClasses : List String) (links : List GraphLink) :
    List GraphLink :=
  links.map fun l =>
    let targetInClasses : Bool :=
      match l.target with
      | .ref s => existingClasses.contains s
      | .node _ => false
    let flag : Bool :=
      l.predicate == "rdf:type" || l.predicate == "rdfs:subClassOf" || targetInClasses
    { l with isOntologyLink := some flag }

/-- The link list extractKnowledgeGraph returns for a parsed fragment:
heuristic linking over the fragment nodes, then the isOntologyLink remap. -/
def extractKnowledgeGraphLinks (existingClasses : List String)
    (nodes : List GraphNode) (links : List GraphLink) : List GraphLink :=
  markOntologyLinks existingClasses (nodes.foldl extractStep links)

/-- The link list performShaclScan returns for a parsed fragment:
heuristic linking only, no remap. -/
def performShaclScanLinks (nodes : List GraphNode) (links : List GraphLink) :
    List GraphLink :=
  nodes.foldl shaclStep links

/-- A dynamically typed argument: either a genuine JS array of values or
any non-array value (undefined, null, object, and so on). -/
inductive JsArray (α : Type) where
  | arr (xs : List α)
  | notArray
deriving DecidableEq, Repr

/-- The outcome of calling mergeGraphData with dynamically typed
arguments: a normal result, or the TypeError JS raises when `.filter` is
invoked on a non-array `newNodes`. -/
inductive DynMergeOutcome where
  | ok (r : MergeResult)
  | typeError
deriving DecidableEq, Repr

/-- mergeGraphData under JS dynamic typing.  The body runs
`newNodes.filter(...)` before any guard, so a non-array node argument
raises a TypeError; the link argument is guarded by
`Array.isArray(newLinks) ? newLinks : []` and a non-array is treated as
empty. -/
def mergeGraphDataDyn (rand : Nat → Int × Int) (prev : KnowledgeGraphData)
    (newNodes : JsArray GraphNode) (newLinks : JsArray GraphLink) : DynMergeOutcome :=
  match newNodes with
  | .notArray => .typeError
  | .arr ns =>
    let safeLinks := match newLinks with
      | .arr ls => ls
      | .notArray => []
    .ok (mergeGraphData rand prev ns safeLinks)

/-- The pacing wait of processBackgroundQueue before launching item i:
`await new Promise(r => setTimeout(r, i === 0 ? 0 : 2000))`. -/
def pacingDelayMs (i : Nat) : Nat := if i == 0 then 0 else 2000

/-- The instant (ms after the queue starts) at which item i is launched:
the loop body awaits the pacing delays of items 0..i and then calls
`analyzeArticle(article)` WITHOUT awaiting it, so only the timers
separate consecutive launches. -/
def launchTimeMs (i : Nat) : Nat :=
  ((List.range (i + 1)).map pacingDelayMs).sum

/-- The instant at which item i finishes its enrichment call and merge,
given the duration `dur i` of that work: the un-awaited analyzeArticle
promise runs from its launch, concurrently with later items. -/
def completionTimeMs (dur : Nat → Nat) (i : Nat) : Nat :=
  launchTimeMs i + dur i

/-- A parsed JSON value, as JSON.parse can produce it. -/
inductive JsValue where
  | null
  | bool (b : Bool)
  | num (n : Int)
  | str (s : String)
  | arr (xs : List JsValue)
  | obj (fields : List (String × JsValue))

/-- JS truthiness of a parsed JSON value (arrays and objects are always
truthy; 0, empty string, false and null are falsy). -/
def JsValue.truthy : JsValue → Bool
  | .null => false
  | .bool b => b
  | .num n => n != 0
  | .str s => s != ""
  | .arr _ => true
  | .obj _ => true

/-- Property access `v.name` on a parsed value: a field of an object,
undefined (none) on every non-object non-null value. Access on null
throws and is handled separately where it can occur. -/
def JsValue.getField : JsValue → String → Option JsValue
  | .obj fields, name => (fields.find? (fun p => p.1 == name)).map Prod.snd
  | _, _ => none

/-- `x || d` over a possibly-undefined JS value: the value when present
and truthy, the default otherwise. -/
def jsOr (v : Option JsValue) (d : JsValue) : JsValue :=
  match v with
  | some x => if x.truthy then x else d
  | none => d

/-- `NewsArticle` of src/unnamed/part_000.  The fields filled from the
unvalidated model response keep the dynamic `JsValue` type; id,
timestamp and url are always strings in the source code paths. -/
structure NewsArticle where
  id : String
  title : JsValue
  summary : JsValue
  source : JsValue
  timestamp : String
  url : String
  semanticTags : List JsValue
  riskLevel : JsValue

/-- The fallback article fetchGlobalIntel returns from its catch block. -/
def mockIntelArticle (nowIso : String) : NewsArticle :=
  { id := "mock-1"
  , title := JsValue.str "System Offline: Neural Net Breach"
  , summary := JsValue.str "A localized failure in the semantic grid has caused data packet loss. Provenance chains broken."
  , source := JsValue.str "Internal Sensors"
  , timestamp := nowIso
  , riskLevel := JsValue.str "HIGH"
  , semanticTags := [JsValue.str "prov:Invalidation", JsValue.str "sec:Breach"]
  , url := "#" }

/-- The per-item mapping of fetchGlobalIntel
(`data.map((item, index) => (\x7b ... \x7d))`).  A null item makes
`item.title` throw inside the try block (none); any other item builds an
article with `||` defaults.  `nowMs` stands for `Date.now()`, `nowIso`
for `new Date().toISOString()`, and `grounding` for the
`groundingChunks?.[index]?.web?.uri` optional chain. -/
def itemToArticle (nowMs nowIso : String) (grounding : Nat → Option String)
    (i : Nat) (item : JsValue) : Option NewsArticle :=
  match item with
  | JsValue.null => none
  | _ =>
    some
      { id := "news-" ++ nowMs ++ "-" ++ toString i
      , title := jsOr (item.getField "title") (JsValue.str "Unknown Event")
      , summary := jsOr (item.getField "summary") (JsValue.str "No details available.")
      , source := jsOr (item.getField "source") (JsValue.str "Unknown Source")
      , riskLevel := jsOr (item.getField "riskLevel") (JsValue.str "LOW")
      , semanticTags :=
          match item.getField "semanticTags" with
          | some (JsValue.arr xs) => xs
          | _ => []
      , timestamp := nowIso
      , url :=
          match grounding i with
          | some u => if u == "" then "#" else u
          | none => "#" }

/-- The `data.map` loop: items are mapped left to right; the first null
item throws out of the map (none), which the catch block turns into the
mock fallback. -/
def buildArticles (nowMs nowIso : String) (grounding : Nat → Option String) :
    Nat → List JsValue → Option (List NewsArticle)
  | _, [] => some []
  | i, item :: rest =>
    match itemToArticle nowMs nowIso grounding i item with
    | none => none
    | some a =>
      match buildArticles nowMs nowIso grounding (i + 1) rest with
      | none => none
      | some tail => some (a :: tail)

/-- The array-shape recovery of fetchGlobalIntel: an array is used as is;
a (truthy) object yields `Object.values(data).find(v => Array.isArray(v))`
or []; anything else (null, string, number, boolean) yields []. -/
def recoverArray : JsValue → List JsValue
  | .arr xs => xs
  | .obj fields =>
    let firstArr := (fields.map Prod.snd).filterMap fun v =>
      match v with
      | JsValue.arr xs => some xs
      | _ => none
    firstArr.headD []
  | _ => []

/-- The outcome of the awaited `ai.models.generateContent` call plus the
JSON.parse of its text: the call rejected (throw), or it resolved and the
text parsed to a value (some v) or failed to parse (none).  `grounding`
carries the grounding-chunk uris of the response. -/
inductive CallOutcome where
  | throw
  | ok (parsed : Option JsValue) (grounding : Nat → Option String)

/-- The topic-dependent context line of the prompt (the only part of the
prompt that depends on the argument; the surrounding fixed text is
irrelevant to every property below). -/
def intelContext (topic : Option String) : String :=
  match topic with
  | some t =>
    if t != "" then
      "Focus strictly on the topic: \"" ++ t ++ "\". Find connections to this topic globally."
    else
      "Focus on: Geopolitics, Cyber Threats, Environmental Disasters, and Major Technological Shifts."
  | none =>
    "Focus on: Geopolitics, Cyber Threats, Environmental Disasters, and Major Technological Shifts."

/-- The article list the try/catch of fetchGlobalIntel produces once an
API key is present:  a rejected call or a throwing map is caught and
replaced by the single mock article; otherwise the parsed data is
normalized to an array and mapped. -/
def runIntelCall (outcome : CallOutcome) (nowMs nowIso : String) : List NewsArticle :=
  match outcome with
  | .throw => [mockIntelArticle nowIso]
  | .ok parsed grounding =>
    let data : JsValue :=
      match parsed with
      | none => JsValue.arr []
      | some v => v
    match buildArticles nowMs nowIso grounding 0 (recoverArray data) with
    | some arts => arts
    | none => [mockIntelArticle nowIso]

/-- `fetchGlobalIntel` of src/services/geminiService.ts:  without an API
key it throws "API Key not found" before entering the try block; with one
it always resolves with an article list. -/
def fetchGlobalIntel (apiKey : Option String) (topic : Option String)
    (outcome : CallOutcome) (nowMs nowIso : String) : Except String (List NewsArticle) :=
  match apiKey with
  | none => Except.error "API Key not found"
  | some _ =>
    let _ := intelContext topic
    Except.ok (runIntelCall outcome nowMs nowIso)

/-- The UN scenario node of spec section 8. -/
def unNode : GraphNode :=
  { id := "UN", label := "United Nations", type := NodeType.Organization }

/-- The scenario link whose target `SecurityCouncil` resolves to no node. -/
def unSCLink : GraphLink :=
  { source := Endpoint.ref "UN", target := Endpoint.ref "SecurityCouncil"
  , predicate := "org:memberOf", label := "memberOf" }

/-- A Person instance node for the filter scenario. -/
def aliceNode : GraphNode :=
  { id := "Alice", label := "Alice", type := NodeType.Person }

/-- An Organization instance node for the filter scenario. -/
def acmeNode : GraphNode :=
  { id := "Acme", label := "Acme Corp", type := NodeType.Organization }

/-- The `org:memberOf` link between the two scenario instances. -/
def aliceAcmeLink : GraphLink :=
  { source := Endpoint.ref "Alice", target := Endpoint.ref "Acme"
  , predicate := "org:memberOf", label := "memberOf" }

/-- A typing link for the Person instance. -/
def aliceTypeLink : GraphLink :=
  { source := Endpoint.ref "Alice", target := Endpoint.ref "Person"
  , predicate := "rdf:type", label := "type" }

/-- The seeded graph holding one Person linked to one Organization. -/
def scenarioGraph : KnowledgeGraphData :=
  { nodes := STANDARD_CLASSES ++ [aliceNode, acmeNode], links := [aliceAcmeLink] }

/-- The filter configuration typeFilter=Person, ontology layer shown. -/
def personFilter : Filters :=
  { searchTerm := "", nodeTypeFilter := TypeFilter.kind NodeType.Person, showOntology := true }

/-- The pre-seeded Person Class node (head of STANDARD_CLASSES). -/
def personClassNode : GraphNode :=
  { id := "Person", label := "Person", type := NodeType.Class, x := some 0, y := some 0 }

/-- A non-Class node offered to the merge with no links at all. -/
def untypedPerson : GraphNode :=
  { id := "X", label := "X", type := NodeType.Person }

/-- Two candidate nodes sharing one id inside a single batch. -/
def dupNode1 : GraphNode := { id := "A", label := "first", type := NodeType.Person }

/-- Second candidate with the same id but a different label. -/
def dupNode2 : GraphNode := { id := "A", label := "second", type := NodeType.Person }

/-- A link used twice inside a single batch. -/
def dupLink : GraphLink :=
  { source := Endpoint.ref "A", target := Endpoint.ref "Person"
  , predicate := "rdf:type", label := "type" }

-- Shared facts about the merge, used by several claims below.

theorem placeNode_id (d : Int × Int) (n : GraphNode) : (placeNode d n).id = n.id := rfl

theorem placeNodes_map_id (rand : Nat → Int × Int) :
    ∀ (i : Nat) (l : List GraphNode),
      (placeNodes rand i l).map GraphNode.id = l.map GraphNode.id := by
  intro i l
  induction l generalizing i with
  | nil => rfl
  | cons n rest ih => simp [placeNodes, placeNode_id, ih]

theorem mergeGraphData_added (rand : Nat → Int × Int) (g : KnowledgeGraphData)
    (ns : List GraphNode) (ls : List GraphLink) :
    (mergeGraphData rand g ns ls).addedNodes = placeNodes rand 0 (uniqueNewNodes g ns)
      ∧ (mergeGraphData rand g ns ls).addedLinks = uniqueNewLinks g ls := by
  unfold mergeGraphData
  split
  · next h =>
    rcases Bool.and_eq_true .. |>.mp h with ⟨h1, h2⟩
    rw [List.isEmpty_iff] at h1 h2
    simp [h1, h2, placeNodes]
  · exact ⟨rfl, rfl⟩

theorem mergeGraphData_graph_eq (rand : Nat → Int × Int) (g : KnowledgeGraphData)
    (ns : List GraphNode) (ls : List GraphLink) :
    (mergeGraphData rand g ns ls).graph.nodes = g.nodes ++ placeNodes rand 0 (uniqueNewNodes g ns)
      ∧ (mergeGraphData rand g ns ls).graph.links = g.links ++ uniqueNewLinks g ls := by
  unfold mergeGraphData
  split
  · next h =>
    rcases Bool.and_eq_true .. |>.mp h with ⟨h1, h2⟩
    rw [List.isEmpty_iff] at h1 h2
    simp [h1, h2, placeNodes]
  · exact ⟨rfl, rfl⟩

theorem launchTimeMs_eq (i : Nat) : launchTimeMs i = 2000 * i := by
  induction i with
  | zero => rfl
  | succ n ih =>
    unfold launchTimeMs at ih ⊢
    rw [List.range_succ, List.map_append, List.sum_append, ih]
    simp [pacingDelayMs]
    ring

-- Shared facts about the heuristic typing loops.

theorem hasTypeLink_append (ls ls' : List GraphLink) (id : String) :
    hasTypeLink (ls ++ ls') id = (hasTypeLink ls id || hasTypeLink ls' id) := by
  simp [hasTypeLink, List.any_append]

theorem hasTypeLink_synth (n : GraphNode) : hasTypeLink [synthTypeLink n] n.id = true := by
  simp [hasTypeLink, synthTypeLink, Endpoint.strEq]

theorem extractStep_preserves (ls : List GraphLink) (n : GraphNode) (id : String)
    (h : hasTypeLink ls id = true) : hasTypeLink (extractStep ls n) id = true := by
  unfold extractStep
  split_ifs <;> simp [hasTypeLink_append, h]

theorem shaclStep_preserves (ls : List GraphLink) (n : GraphNode) (id : String)
    (h : hasTypeLink ls id = true) : hasTypeLink (shaclStep ls n) id = true := by
  unfold shaclStep
  split_ifs <;> simp [hasTypeLink_append, h]

theorem extractStep_ensures (ls : List GraphLink) (n : GraphNode)
    (h : n.type ≠ NodeType.Class) : hasTypeLink (extractStep ls n) n.id = true := by
  unfold extractStep
  have h1 : (n.type == NodeType.Class) = false := by simp [h]
  by_cases h2 : hasTypeLink ls n.id = true
  · simp [h1, h2]
  · have h3 : (n.type.toStr == "") = false := by cases n.type <;> rfl
    simp [h1, h2, h3, hasTypeLink_append, hasTypeLink_synth]

theorem shaclStep_ensures (ls : List GraphLink) (n : GraphNode)
    (h : n.type ≠ NodeType.Class) : hasTypeLink (shaclStep ls n) n.id = true := by
  unfold shaclStep
  have h1 : (n.type == NodeType.Class) = false := by simp [h]
  by_cases h2 : hasTypeLink ls n.id = true
  · simp [h1, h2]
  · simp [h1, h2, hasTypeLink_append, hasTypeLink_synth]

theorem foldl_hasTypeLink_preserved {step : List GraphLink → GraphNode → List GraphLink}
    (hp : ∀ ls n id, hasTypeLink ls id = true → hasTypeLink (step ls n) id = true) :
    ∀ (nodes : List GraphNode) (ls : List GraphLink) (id : String),
      hasTypeLink ls id = true → hasTypeLink (nodes.foldl step ls) id = true := by
  intro nodes
  induction nodes with
  | nil => intro ls id h; simpa using h
  | cons m rest ih => intro ls id h; exact ih _ _ (hp _ _ _ h)

theorem foldl_hasTypeLink_ensured {step : List GraphLink → GraphNode → List GraphLink}
    (hp : ∀ ls n id, hasTypeLink ls id = true → hasTypeLink (step ls n) id = true)
    (he : ∀ ls n, n.type ≠ NodeType.Class → hasTypeLink (step ls n) n.id = true) :
    ∀ (nodes : List GraphNode) (ls : List GraphLink) (n : GraphNode),
      n ∈ nodes → n.type ≠ NodeType.Class → hasTypeLink (nodes.foldl step ls) n.id = true := by
  intro nodes
  induction nodes with
  | nil => intro ls n h; simp at h
  | cons m rest ih =>
    intro ls n hmem hnc
    rcases List.mem_cons.mp hmem with h | h
    · subst h
      exact foldl_hasTypeLink_preserved hp rest _ _ (he ls n hnc)
    · exact ih _ n h hnc

theorem hasTypeLink_markOntologyLinks (ecs : List String) (ls : List GraphLink) (id : String) :
    hasTypeLink (markOntologyLinks ecs ls) id = hasTypeLink ls id := by
  unfold hasTypeLink markOntologyLinks
  rw [List.any_map]
  rfl

-- Claim theorems.

/-- Claim C1, counterexample: merging the seeded graph with the node UN
and a link whose target SecurityCouncil resolves to no node leaves that
dangling link in the canonical links, with no node of that id anywhere in
the post-merge node set — the merge does not drop it. -/
theorem mergeGraphData_dangling_link_enters_store :
    unSCLink ∈ (mergeGraphData rand0 initialGraph [unNode] [unSCLink]).graph.links
      ∧ ∀ n ∈ (mergeGraphData rand0 initialGraph [unNode] [unSCLink]).graph.nodes,
          n.id ≠ "SecurityCouncil" := by
  decide

/-- Claim C1, amended: mergeGraphData filters candidate links only by
their duplicate signature against the pre-merge link set; no condition on
endpoint resolution appears, so a link with an unresolvable source or
target enters canonical state (it is excluded only from the filtered
view). -/
theorem mergeGraphData_links_filtered_only_by_sig (rand : Nat → Int × Int)
    (g : KnowledgeGraphData) (ns : List GraphNode) (ls : List GraphLink) :
    (mergeGraphData rand g ns ls).graph.links
      = g.links ++ ls.filter (fun l => !((g.links.map linkSig).contains (linkSig l))) :=
  (mergeGraphData_graph_eq rand g ns ls).2

/-- Claim C2, counterexample: on the seeded graph with one Person
instance linked to one Organization instance, typeFilter=Person with the
ontology layer shown keeps only the Person instance — the pre-seeded
Person Class node is NOT exempt from the type filter and is excluded. -/
theorem filteredNodes_class_not_exempt :
    personClassNode ∈ scenarioGraph.nodes
      ∧ personFilter.showOntology = true
      ∧ filteredNodes scenarioGraph personFilter = [aliceNode]
      ∧ filteredLinks scenarioGraph personFilter = []
      ∧ personClassNode ∉ filteredNodes scenarioGraph personFilter := by
  decide

/-- Claim C2, amended: with the ontology layer shown and typeFilter set
to a specific kind, the filtered view keeps exactly the nodes of that
kind; Class nodes receive no exemption. -/
theorem filteredNodes_kind_filter_keeps_exactly_kind (g : KnowledgeGraphData)
    (s : String) (k : NodeType) :
    filteredNodes g { searchTerm := s, nodeTypeFilter := TypeFilter.kind k, showOntology := true }
      = g.nodes.filter (fun n => n.type == k) := by
  unfold filteredNodes
  apply List.filter_congr
  intro n _
  rfl

/-- Claim C3: the merge is idempotent under identical input — re-merging
the same candidate batch into the post-merge graph returns that graph
unchanged, with empty added-node and added-link deltas and hasChanges
false (so no re-render or layout reheat is triggered). -/
theorem mergeGraphData_idempotent (r1 r2 : Nat → Int × Int) (g : KnowledgeGraphData)
    (ns : List GraphNode) (ls : List GraphLink) :
    (mergeGraphData r2 (mergeGraphData r1 g ns ls).graph ns ls).graph
        = (mergeGraphData r1 g ns ls).graph
      ∧ (mergeGraphData r2 (mergeGraphData r1 g ns ls).graph ns ls).addedNodes = []
      ∧ (mergeGraphData r2 (mergeGraphData r1 g ns ls).graph ns ls).addedLinks = []
      ∧ (mergeGraphData r2 (mergeGraphData r1 g ns ls).graph ns ls).hasChanges = false := by
  have hnodes := (mergeGraphData_graph_eq r1 g ns ls).1
  have hlinks := (mergeGraphData_graph_eq r1 g ns ls).2
  have hun : uniqueNewNodes (mergeGraphData r1 g ns ls).graph ns = [] := by
    apply List.filter_eq_nil_iff.mpr
    intro n hn
    have hmem : n.id ∈ (mergeGraphData r1 g ns ls).graph.nodes.map GraphNode.id := by
      rw [hnodes, List.map_append]
      by_cases hc : n.id ∈ g.nodes.map GraphNode.id
      · exact List.mem_append_left _ hc
      · apply List.mem_append_right
        rw [placeNodes_map_id]
        refine List.mem_map.mpr ⟨n, ?_, rfl⟩
        unfold uniqueNewNodes
        refine List.mem_filter.mpr ⟨hn, ?_⟩
        simp [hc]
    simp [hmem]
  have hul : uniqueNewLinks (mergeGraphData r1 g ns ls).graph ls = [] := by
    apply List.filter_eq_nil_iff.mpr
    intro l hl
    have hmem : linkSig l ∈ (mergeGraphData r1 g ns ls).graph.links.map linkSig := by
      rw [hlinks, List.map_append]
      by_cases hc : linkSig l ∈ g.links.map linkSig
      · exact List.mem_append_left _ hc
      · apply List.mem_append_right
        refine List.mem_map.mpr ⟨l, ?_, rfl⟩
        unfold uniqueNewLinks
        refine List.mem_filter.mpr ⟨hl, ?_⟩
        simp [hc]
    simp [hmem]
  have key : mergeGraphData r2 (mergeGraphData r1 g ns ls).graph ns ls
      = { graph := (mergeGraphData r1 g ns ls).graph
        , addedNodes := [], addedLinks := [], hasChanges := false } := by
    generalize hG : (mergeGraphData r1 g ns ls).graph = G at hun hul
    unfold mergeGraphData
    rw [hun, hul]
    simp
  rw [key]
  exact ⟨rfl, rfl, rfl, rfl⟩

/-- Claim C4, counterexample: mergeGraphData itself performs no ontology
back-filling — merging a non-Class node with no links into the seeded
graph (where a Class node of matching kind id is present) leaves that
node without any outgoing rdf:type link in the post-merge state. -/
theorem merge_no_backfill_cex :
    ((mergeGraphData rand0 initialGraph [untypedPerson] []).graph.nodes.any
        fun n => n.id == "X" && !(n.type == NodeType.Class)) = true
      ∧ ((mergeGraphData rand0 initialGraph [untypedPerson] []).graph.nodes.any
          fun n => n.id == "Person" && n.type == NodeType.Class) = true
      ∧ hasTypeLink (mergeGraphData rand0 initialGraph [untypedPerson] []).graph.links "X"
          = false := by
  decide

/-- Claim C4, amended: the rdf:type back-filling lives in the extraction
functions, not in the merge, and ranges over the incoming fragment only:
every non-Class node of a fragment returned by extractKnowledgeGraph or
performShaclScan carries at least one outgoing rdf:type link among the
fragment links (synthesized toward the node kind used as a Class id when
missing); nodes merged in earlier calls are never repaired. -/
theorem heuristic_linking_ensures_type_link (existingClasses : List String)
    (nodes : List GraphNode) (links : List GraphLink) :
    ∀ n ∈ nodes, n.type ≠ NodeType.Class →
      hasTypeLink (extractKnowledgeGraphLinks existingClasses nodes links) n.id = true
        ∧ hasTypeLink (performShaclScanLinks nodes links) n.id = true := by
  intro n hmem hnc
  constructor
  · unfold extractKnowledgeGraphLinks
    rw [hasTypeLink_markOntologyLinks]
    exact foldl_hasTypeLink_ensured extractStep_preserves extractStep_ensures nodes links n hmem hnc
  · exact foldl_hasTypeLink_ensured shaclStep_preserves shaclStep_ensures nodes links n hmem hnc

/-- Claim C4, witness for the amended theorem at a concrete fragment. -/
theorem heuristic_linking_ensures_type_link_witness :
    hasTypeLink (extractKnowledgeGraphLinks [] [untypedPerson] []) untypedPerson.id = true
      ∧ hasTypeLink (performShaclScanLinks [untypedPerson] []) untypedPerson.id = true :=
  heuristic_linking_ensures_type_link [] [untypedPerson] [] untypedPerson
    (by decide) (by decide)

/-- Claim C5: view soundness — a link appears in filteredLinks exactly
when it is a canonical link and both of its resolved endpoint ids are
carried by nodes that survived the node-level filters, for every filter
configuration. -/
theorem filteredLinks_endpoints_in_filteredNodes (g : KnowledgeGraphData)
    (f : Filters) (l : GraphLink) :
    l ∈ filteredLinks g f ↔
      l ∈ g.links
        ∧ (∃ n ∈ filteredNodes g f, n.id = l.source.resolveId)
        ∧ (∃ n ∈ filteredNodes g f, n.id = l.target.resolveId) := by
  unfold filteredLinks
  rw [List.mem_filter]
  simp [List.any_eq_true]

/-- Claim C6, counterexample: the merge dedups only against the
pre-merge store, so a single batch holding two candidate nodes with the
same id, or the same link twice, puts both copies into the canonical
graph, breaking id and triple uniqueness. -/
theorem mergeGraphData_batch_dup_breaks_uniqueness :
    ¬ (((mergeGraphData rand0 emptyGraph [dupNode1, dupNode2] [dupLink, dupLink]).graph.nodes.map
          GraphNode.id).Nodup)
      ∧ ¬ (((mergeGraphData rand0 emptyGraph [dupNode1, dupNode2] [dupLink, dupLink]).graph.links.map
            linkSig).Nodup) := by
  decide

/-- Claim C6, amended: a merge preserves id and signature uniqueness
provided the incoming batch is itself free of duplicate node ids and
duplicate link signatures (duplicates against the existing store are
filtered; duplicates inside one batch are not). -/
theorem mergeGraphData_preserves_uniqueness (rand : Nat → Int × Int)
    (g : KnowledgeGraphData) (ns : List GraphNode) (ls : List GraphLink)
    (hgn : (g.nodes.map GraphNode.id).Nodup)
    (hgl : (g.links.map linkSig).Nodup)
    (hbn : (ns.map GraphNode.id).Nodup)
    (hbl : (ls.map linkSig).Nodup) :
    ((mergeGraphData rand g ns ls).graph.nodes.map GraphNode.id).Nodup
      ∧ ((mergeGraphData rand g ns ls).graph.links.map linkSig).Nodup := by
  constructor
  · rw [(mergeGraphData_graph_eq rand g ns ls).1, List.map_append, placeNodes_map_id,
      List.nodup_append]
    refine ⟨hgn, ?_, ?_⟩
    · unfold uniqueNewNodes
      exact hbn.sublist ((List.filter_sublist ns).map GraphNode.id)
    · intro a ha hb
      rcases List.mem_map.mp hb with ⟨n, hn, rfl⟩
      unfold uniqueNewNodes at hn
      have hp := (List.mem_filter.mp hn).2
      simp at hp
      rcases List.mem_map.mp ha with ⟨m, hmmem, hmeq⟩
      exact hp m hmmem hmeq
  · rw [(mergeGraphData_graph_eq rand g ns ls).2, List.map_append, List.nodup_append]
    refine ⟨hgl, ?_, ?_⟩
    · unfold uniqueNewLinks
      exact hbl.sublist ((List.filter_sublist ls).map linkSig)
    · intro a ha hb
      rcases List.mem_map.mp hb with ⟨l, hl, rfl⟩
      unfold uniqueNewLinks at hl
      have hp := (List.mem_filter.mp hl).2
      simp at hp
      rcases List.mem_map.mp ha with ⟨m, hmmem, hmeq⟩
      exact hp m hmmem hmeq

/-- Claim C6, witness for the amended theorem at a concrete merge. -/
theorem mergeGraphData_preserves_uniqueness_witness :
    ((mergeGraphData rand0 initialGraph [aliceNode] [aliceTypeLink]).graph.nodes.map
        GraphNode.id).Nodup
      ∧ ((mergeGraphData rand0 initialGraph [aliceNode] [aliceTypeLink]).graph.links.map
          linkSig).Nodup :=
  mergeGraphData_preserves_uniqueness rand0 initialGraph [aliceNode] [aliceTypeLink]
    (by decide) (by decide) (by decide) (by decide)

/-- Claim C7: the merge is append-only — the pre-merge nodes and links
reappear verbatim (same label, kind and position) as a prefix of the
post-merge state, so first write wins and a re-offered id never
overwrites, and every node the placement loop touched carries an id that
was absent from the pre-merge store. -/
theorem mergeGraphData_preserves_existing (rand : Nat → Int × Int)
    (g : KnowledgeGraphData) (ns : List GraphNode) (ls : List GraphLink) :
    (mergeGraphData rand g ns ls).graph.nodes
        = g.nodes ++ (mergeGraphData rand g ns ls).addedNodes
      ∧ (mergeGraphData rand g ns ls).graph.links
          = g.links ++ (mergeGraphData rand g ns ls).addedLinks
      ∧ ∀ n ∈ (mergeGraphData rand g ns ls).addedNodes, n.id ∉ g.nodes.map GraphNode.id := by
  refine ⟨?_, ?_, ?_⟩
  · rw [(mergeGraphData_graph_eq rand g ns ls).1, (mergeGraphData_added rand g ns ls).1]
  · rw [(mergeGraphData_graph_eq rand g ns ls).2, (mergeGraphData_added rand g ns ls).2]
  · intro n hn
    rw [(mergeGraphData_added rand g ns ls).1] at hn
    have hid : n.id ∈ (placeNodes rand 0 (uniqueNewNodes g ns)).map GraphNode.id :=
      List.mem_map_of_mem _ hn
    rw [placeNodes_map_id] at hid
    rcases List.mem_map.mp hid with ⟨m, hm, heq⟩
    unfold uniqueNewNodes at hm
    have hp := (List.mem_filter.mp hm).2
    simp at hp
    rw [← heq]
    simpa using hp

/-- Claim C7, witness at a concrete merge: the seeded nodes survive as a
prefix and the placed node is genuinely new. -/
theorem mergeGraphData_preserves_existing_witness :
    (mergeGraphData rand0 initialGraph [unNode] []).graph.nodes
        = initialGraph.nodes ++ (mergeGraphData rand0 initialGraph [unNode] []).addedNodes
      ∧ (placeNode (rand0 0) unNode).id ∉ initialGraph.nodes.map GraphNode.id :=
  ⟨(mergeGraphData_preserves_existing rand0 initialGraph [unNode] []).1,
    (mergeGraphData_preserves_existing rand0 initialGraph [unNode] []).2.2
      (placeNode (rand0 0) unNode) (by decide)⟩

/-- Claim C8, counterexample: a call whose candidate node argument is not
a list raises a TypeError out of the merge (the source guards only the
link argument with Array.isArray; `newNodes.filter` runs unguarded). -/
theorem mergeGraphDataDyn_nonlist_nodes_raises :
    mergeGraphDataDyn rand0 initialGraph JsArray.notArray (JsArray.arr [])
      = DynMergeOutcome.typeError := rfl

/-- Claim C8, amended: only the link argument fails softly — a non-list
link argument behaves exactly like an empty list and a call with a
genuine node list always returns a normal result, while a non-list node
argument always raises. -/
theorem mergeGraphDataDyn_guards_links_only (rand : Nat → Int × Int)
    (g : KnowledgeGraphData) :
    (∀ ns, mergeGraphDataDyn rand g (JsArray.arr ns) JsArray.notArray
        = mergeGraphDataDyn rand g (JsArray.arr ns) (JsArray.arr []))
      ∧ (∀ ns ls, ∃ r, mergeGraphDataDyn rand g (JsArray.arr ns) (JsArray.arr ls)
          = DynMergeOutcome.ok r)
      ∧ (∀ larg, mergeGraphDataDyn rand g JsArray.notArray larg = DynMergeOutcome.typeError) :=
  ⟨fun _ => rfl, fun _ _ => ⟨_, rfl⟩, fun _ => rfl⟩

/-- Claim C9, counterexample: the queue loop awaits only the pacing
timers and fires analyzeArticle without awaiting it, so when item 0 needs
5000 ms of enrichment work, item 1 is launched at 2000 ms — before item 0
completes — refuting strict sequential processing. -/
theorem queue_launch_before_completion_cex :
    ¬ (completionTimeMs (fun _ => 5000) 0 ≤ launchTimeMs 1) := by
  decide

/-- Claim C9, amended: launches are strictly ordered in enqueue order
with the fixed pacing — the first item launches immediately and every
later item exactly 2000 ms after its predecessor — but the loop does not
wait for an item to complete, so an item whose work outlasts the pacing
delay overlaps the next launch. -/
theorem queue_pacing_launch_order :
    launchTimeMs 0 = 0
      ∧ (∀ i, launchTimeMs (i + 1) = launchTimeMs i + 2000)
      ∧ (∀ i j, i < j → launchTimeMs i < launchTimeMs j)
      ∧ (∃ dur i, launchTimeMs (i + 1) < completionTimeMs dur i) := by
  refine ⟨rfl, ?_, ?_, ?_⟩
  · intro i
    rw [launchTimeMs_eq, launchTimeMs_eq]
    ring
  · intro i j hij
    rw [launchTimeMs_eq, launchTimeMs_eq]
    omega
  · exact ⟨fun _ => 5000, 0, by decide⟩

/-- Claim C9, witness for the amended theorem: launch order at items 1
and 2. -/
theorem queue_pacing_launch_order_witness : launchTimeMs 1 < launchTimeMs 2 :=
  queue_pacing_launch_order.2.2.1 1 2 (by omega)

/-- Claim C10: with no API key configured fetchGlobalIntel rejects with
exactly the "API Key not found" error; with a key it never rejects — a
throwing model call resolves with exactly the one fixed fallback article
(id mock-1, riskLevel HIGH), an unparseable response resolves with the
empty article list, and any parsed value resolves with articles built
from the recovered (possibly empty) item list, falling back to the mock
article only when the item mapping itself throws. -/
theorem fetchGlobalIntel_error_handling (k nowMs nowIso : String)
    (topic : Option String) (outcome : CallOutcome)
    (grounding : Nat → Option String) (v : JsValue) :
    fetchGlobalIntel none topic outcome nowMs nowIso = Except.error "API Key not found"
      ∧ fetchGlobalIntel (some k) topic CallOutcome.throw nowMs nowIso
          = Except.ok [mockIntelArticle nowIso]
      ∧ (mockIntelArticle nowIso).id = "mock-1"
      ∧ (mockIntelArticle nowIso).riskLevel = JsValue.str "HIGH"
      ∧ (∃ arts, fetchGlobalIntel (some k) topic outcome nowMs nowIso = Except.ok arts)
      ∧ fetchGlobalIntel (some k) topic (CallOutcome.ok none grounding) nowMs nowIso
          = Except.ok []
      ∧ (∃ arts,
          fetchGlobalIntel (some k) topic (CallOutcome.ok (some v) grounding) nowMs nowIso
              = Except.ok arts
            ∧ (buildArticles nowMs nowIso grounding 0 (recoverArray v) = some arts
                ∨ arts = [mockIntelArticle nowIso])) := by
  refine ⟨rfl, rfl, rfl, rfl, ⟨_, rfl⟩, rfl, ?_⟩
  cases hb : buildArticles nowMs nowIso grounding 0 (recoverArray v) with
  | none =>
    exact ⟨[mockIntelArticle nowIso], by simp [fetchGlobalIntel, runIntelCall, hb], Or.inr rfl⟩
  | some arts =>
    exact ⟨arts, by simp [fetchGlobalIntel, runIntelCall, hb], Or.inl rfl⟩

end OntoNexus
